import Mathlib

/-!
Verification of the bulk campaign job engine of the SMTP2GO sender worker
(`JobStore` durable object, template renderer, status projector).

Strings are modelled as `List Char`; character classes compare code points,
matching the JS semantics of the regexes in the source.  Recipient records and
render contexts are association lists of string keys to string values (the
scalar values that occur in the code are used only through string coercion).
-/

/-- JS regex class `\w`, i.e. `[A-Za-z0-9_]` (source: `normalizeColumnName`,
`processTemplate`). -/
def isWordChar (c : Char) : Bool :=
  (65 ≤ c.toNat && c.toNat ≤ 90) || (97 ≤ c.toNat && c.toNat ≤ 122) ||
    (48 ≤ c.toNat && c.toNat ≤ 57) || c.toNat == 95

/-- JS regex class `\d` / a decimal digit. -/
def isDigitChar (c : Char) : Bool :=
  48 ≤ c.toNat && c.toNat ≤ 57

/-- JS regex class `\s` and the character set trimmed by `String.prototype.trim`:
ASCII whitespace, NBSP, the Unicode space separators, line/paragraph separators
and the BOM. -/
def isJsSpace (c : Char) : Bool :=
  (9 ≤ c.toNat && c.toNat ≤ 13) || c.toNat == 32 || c.toNat == 160 ||
    c.toNat == 5760 || (8192 ≤ c.toNat && c.toNat ≤ 8202) ||
    c.toNat == 8232 || c.toNat == 8233 || c.toNat == 8239 ||
    c.toNat == 8287 || c.toNat == 12288 || c.toNat == 65279

/-- ASCII letter, the class `[a-zA-Z]` of the email regex. -/
def isAsciiLetter (c : Char) : Bool :=
  (65 ≤ c.toNat && c.toNat ≤ 90) || (97 ≤ c.toNat && c.toNat ≤ 122)

/-- Local-part class `[a-zA-Z0-9._%+-]` of the email regex in `isValidEmail`. -/
def isLocalChar (c : Char) : Bool :=
  isAsciiLetter c || isDigitChar c || c == '.' || c == '_' || c == '%' ||
    c == '+' || c == '-'

/-- Domain class `[a-zA-Z0-9.-]` of the email regex in `isValidEmail`. -/
def isDomainChar (c : Char) : Bool :=
  isAsciiLetter c || isDigitChar c || c == '.' || c == '-'

/-- The part of `isValidEmail` after the `@`: some split `d ++ "." ++ t` with
`d` a non-empty run of domain characters and `t` at least two ASCII letters,
anchored at the end of the string. -/
def domainOk (r : List Char) : Bool :=
  (List.range r.length).any (fun p =>
    !(r.take p).isEmpty && (r.take p).all isDomainChar &&
      (r.getD p ' ' == '.') &&
      decide (2 ≤ (r.drop (p + 1)).length) && (r.drop (p + 1)).all isAsciiLetter)

/-- `isValidEmail` (source line 49): the anchored regex
`[a-zA-Z0-9._%+-]+ @ [a-zA-Z0-9.-]+ . [a-zA-Z]{2,}` holds of the whole string,
expressed as the existence of an `@` split. -/
def isValidEmail (s : List Char) : Bool :=
  (List.range s.length).any (fun i =>
    (s.getD i ' ' == '@') && !(s.take i).isEmpty && (s.take i).all isLocalChar &&
      domainOk (s.drop (i + 1)))

/-- `String.prototype.trim`: drop JS whitespace from both ends. -/
def jsTrim (l : List Char) : List Char :=
  ((l.dropWhile isJsSpace).reverse.dropWhile isJsSpace).reverse

/-- The global replace `/\W|^(?=\d)/g → "_"`: every non-word character becomes
an underscore, and a zero-width match before a leading digit inserts one
underscore at the front. -/
def underscoreNonWord (l : List Char) : List Char :=
  match l with
  | [] => []
  | c :: rest =>
      let mapped := (c :: rest).map (fun ch => if isWordChar ch then ch else '_')
      if isDigitChar c then '_' :: mapped else mapped

/-- The global replace `/^_+|_+$/g → ""`: strip the leading and the trailing
run of underscores. -/
def stripEdgeUnderscores (l : List Char) : List Char :=
  ((l.dropWhile (fun c => c == '_')).reverse.dropWhile (fun c => c == '_')).reverse

/-- `normalizeColumnName` (source line 89):
`name.trim().replace(/\W|^(?=\d)/g,"_").replace(/^_+|_+$/g,"")` with the
fallback `"col"` for an empty (falsy) result. -/
def normalizeColumnName (l : List Char) : List Char :=
  let s := stripEdgeUnderscores (underscoreNonWord (jsTrim l))
  if s.isEmpty then ['c', 'o', 'l'] else s

/-- Characters admitted inside a placeholder by the class `[\w\s.-]` of the
template regex in `processTemplate`. -/
def isTmplKeyChar (c : Char) : Bool :=
  isWordChar c || isJsSpace c || c == '.' || c == '-'

/-- Scan the text following `{{` for the body of a placeholder: the shortest
non-empty run of `[\w\s.-]` characters followed by the literal `}}` (this is
the extent the lazy regex `{{\s*([\w\s.-]+?)\s*}}` matches).  Returns the body
and the text after the closing braces. -/
def grabBody : List Char → Option (List Char × List Char)
  | [] => none
  | c :: rest =>
      if isTmplKeyChar c then
        if rest.take 2 = ['}', '}'] then some ([c], rest.drop 2)
        else
          match grabBody rest with
          | some (body, rest2) => some (c :: body, rest2)
          | none => none
      else none

/-- Try to match the placeholder regex at the current position. -/
def tryMatch (l : List Char) : Option (List Char × List Char) :=
  if l.take 2 = ['{', '{'] then grabBody (l.drop 2) else none

/-- Context lookup `ctx[key] != null`.  The context is an association list in
assignment order; a later assignment to the same key wins, as for a JS object. -/
def ctxLookup (ctx : List (List Char × List Char)) (k : List Char) :
    Option (List Char) :=
  match ctx.reverse.find? (fun kv => kv.1 == k) with
  | some kv => some kv.2
  | none => none

/-- Replacement for one matched placeholder: the context value under the
normalized trimmed key, or the original matched text `{{body}}` verbatim when
the key is absent. -/
def tmplReplace (ctx : List (List Char × List Char)) (body : List Char) :
    List Char :=
  match ctxLookup ctx (normalizeColumnName (jsTrim body)) with
  | some v => v
  | none => '{' :: '{' :: (body ++ ['}', '}'])

/-- The left-to-right global-replace scan of `processTemplate`.  The fuel is an
upper bound on the number of positions still to visit; every step consumes at
least one character, so `l.length` fuel always suffices. -/
def ptGo (ctx : List (List Char × List Char)) : Nat → List Char → List Char
  | 0, l => l
  | _ + 1, [] => []
  | fuel + 1, c :: rest =>
      match tryMatch (c :: rest) with
      | some (body, rest2) => tmplReplace ctx body ++ ptGo ctx fuel rest2
      | none => c :: ptGo ctx fuel rest

/-- `processTemplate` (source line 81): replace every occurrence of
`{{\s*([\w\s.-]+?)\s*}}`, leaving a placeholder verbatim when its normalized
key is not in the context. -/
def processTemplate (tmpl : List Char) (ctx : List (List Char × List Char)) :
    List Char :=
  ptGo ctx tmpl.length tmpl

/-- One failure entry pushed by the tick (`job.failures.push({i, email, error})`). -/
structure Failure where
  i : Nat
  email : List Char
  error : List Char
deriving DecidableEq, Repr

/-- The persisted `job` record written by `JobStore.init` (source line 187). -/
structure Job where
  id : List Char
  created : Nat
  total : Nat
  recipients : List (List (List Char × List Char))
  processed : Nat
  success : Nat
  failed : Nat
  failures : List Failure
  interval : Nat
  subjectTmpl : List Char
  htmlTmpl : List Char
  fromEmailTmpl : List Char
  fromNameTmpl : List Char
  in_progress : Bool
  current : List Char
  last_tick : Nat
deriving DecidableEq, Repr

/-- The worker environment bindings the tick reads (missing bindings are the
empty string, which is falsy exactly like `undefined` in the source's uses). -/
structure Env where
  DEFAULT_SENDER_EMAIL : List Char
  DEFAULT_SENDER_NAME : List Char
deriving DecidableEq, Repr

/-- The payload handed to the dispatch client `fetchSMTP2GO`. -/
structure Payload where
  «to» : List (List Char)
  sender : List Char
  subject : List Char
  html_body : List Char
deriving DecidableEq, Repr

/-- Observable storage and scheduling effects of one durable-object operation,
in the order the code performs them. -/
inductive Effect where
  | putJob (j : Job)
  | setAlarm (t : Nat)
  | send (p : Payload)
deriving DecidableEq, Repr

/-- The outcome of the awaited dispatch call: normal return, or a raised error
with message `msg` (caught at source line 243). -/
inductive DispatchOutcome where
  | ok
  | err (msg : List Char)
deriving DecidableEq, Repr

/-- JS `a || b` on strings: the empty string is falsy. -/
def jsOrS (a b : List Char) : List Char :=
  if a.isEmpty then b else a

/-- JS property read `recipient?.[k]` collapsed to a string (`undefined` and
the absent key both behave as the falsy empty string in every use site). -/
def recGet (r : List (List Char × List Char)) (k : List Char) : List Char :=
  match r.find? (fun kv => kv.1 == k) with
  | some kv => kv.2
  | none => []

/-- Source line 227: `recipient?.Email || recipient?.email || ''`. -/
def resolveEmail (r : List (List Char × List Char)) : List Char :=
  jsOrS (recGet r (['E', 'm', 'a', 'i', 'l'])) (jsOrS (recGet r (['e', 'm', 'a', 'i', 'l'])) [])

/-- Source line 234: the render context maps every normalized recipient key to
its value; a later entry overwrites an earlier one with the same normalized
key (`ctxLookup` takes the last match). -/
def buildCtx (r : List (List Char × List Char)) :
    List (List Char × List Char) :=
  r.map (fun kv => (normalizeColumnName kv.1, kv.2))

/-- Arguments of the `init` request body (source line 186). -/
structure InitArgs where
  id : List Char
  recipients : List (List (List Char × List Char))
  subjectTmpl : List Char
  htmlTmpl : List Char
  interval : Nat
  fromEmailTmpl : List Char
  fromNameTmpl : List Char
deriving DecidableEq, Repr

/-- `JobStore.init` (source lines 184-206): build the fresh record, persist
it, and arm the first alarm `interval` seconds ahead. -/
def initJob (args : InitArgs) (now : Nat) : Job × List Effect :=
  let job : Job :=
    { id := args.id
      created := now
      total := args.recipients.length
      recipients := args.recipients
      processed := 0
      success := 0
      failed := 0
      failures := []
      interval := args.interval
      subjectTmpl := args.subjectTmpl
      htmlTmpl := args.htmlTmpl
      fromEmailTmpl := args.fromEmailTmpl
      fromNameTmpl := args.fromNameTmpl
      in_progress := true
      current := ("Initializing...").data
      last_tick := 0 }
  (job, [Effect.putJob job, Effect.setAlarm (now + args.interval * 1000)])

/-- Tail of the tick (source lines 248-253): advance the cursor, set the
display value, persist, and re-arm only while recipients remain.  `pre` holds
the effects already performed earlier in the tick. -/
def finishTick (j1 : Job) (emailAddress : List Char) (now : Nat)
    (pre : List Effect) : Option Job × List Effect :=
  let j2 := { j1 with
                processed := j1.processed + 1
                current := if emailAddress.isEmpty then ("N/A").data
                           else emailAddress }
  (some j2,
    pre ++ [Effect.putJob j2] ++
      (if j2.processed < j2.total then [Effect.setAlarm (now + j2.interval * 1000)]
       else []))

/-- `JobStore.alarm` (source lines 216-254): one tick of the state machine.
`store` is the persisted record, `outcome` the behaviour of the awaited
dispatch call, `now` the clock.  Returns the record as persisted at the end of
the tick and the effect trace in program order. -/
def alarm (env : Env) (store : Option Job) (outcome : DispatchOutcome)
    (now : Nat) : Option Job × List Effect :=
  match store with
  | none => (none, [])
  | some job =>
      if job.in_progress = false then (some job, [])
      else if job.total ≤ job.processed then
        let j := { job with in_progress := false }
        (some j, [Effect.putJob j])
      else
        let idx := job.processed
        let recipient := job.recipients.getD idx []
        let emailAddress := resolveEmail recipient
        if isValidEmail emailAddress = false then
          let j1 := { job with
                        failed := job.failed + 1
                        failures := job.failures ++
                          [{ i := idx
                             email := if emailAddress.isEmpty
                                      then ("(missing)").data else emailAddress
                             error := ("Invalid email").data }] }
          finishTick j1 emailAddress now []
        else
          let ctx := buildCtx recipient
          let subject := processTemplate job.subjectTmpl ctx
          let html_body := processTemplate job.htmlTmpl ctx
          let senderEmail := if job.fromEmailTmpl.isEmpty
                             then env.DEFAULT_SENDER_EMAIL
                             else processTemplate job.fromEmailTmpl ctx
          let senderName := if job.fromNameTmpl.isEmpty
                            then env.DEFAULT_SENDER_NAME
                            else processTemplate job.fromNameTmpl ctx
          let senderVal := if senderName.isEmpty then senderEmail
                           else senderName ++ (" <").data ++ senderEmail ++ (">").data
          let payload : Payload :=
            { «to» := [emailAddress], sender := senderVal, subject := subject
              html_body := html_body }
          match outcome with
          | DispatchOutcome.ok =>
              finishTick { job with success := job.success + 1 } emailAddress now
                [Effect.send payload]
          | DispatchOutcome.err msg =>
              finishTick
                { job with
                    failed := job.failed + 1
                    failures := job.failures ++
                      [{ i := idx, email := emailAddress, error := msg.take 180 }] }
                emailAddress now [Effect.send payload]

/-- `⌊log2 n⌋` for `n ≥ 1` (and `0` at `0`), with structural fuel so that the
kernel can evaluate it. -/
def natLog2F : Nat → Nat → Nat
  | 0, _ => 0
  | fuel + 1, n => if n ≤ 1 then 0 else 1 + natLog2F fuel (n / 2)

/-- `⌊log2 n⌋` for `n ≥ 1`. -/
def natLog2 (n : Nat) : Nat :=
  natLog2F n n

/-- `⌊log2 (n / d)⌋` for positive naturals, the binade of the quotient. -/
def ilog2 (n d : Nat) : ℤ :=
  let a := natLog2 n
  let b := natLog2 d
  if b ≤ a then
    (if d * 2 ^ (a - b) ≤ n then ((a - b : Nat) : ℤ) else ((a - b : Nat) : ℤ) - 1)
  else
    (if d ≤ n * 2 ^ (b - a) then -((b - a : Nat) : ℤ) else -((b - a : Nat) : ℤ) - 1)

/-- `a / b` rounded to the nearest integer, ties to even. -/
def roundHalfEvenDiv (a b : Nat) : Nat :=
  let q := a / b
  let r := a % b
  if 2 * r < b then q
  else if b < 2 * r then q + 1
  else if q % 2 = 0 then q else q + 1

/-- Round the non-negative rational `n / d` to the nearest IEEE binary64 value
(round-half-to-even), returned as an exact numerator/denominator pair: the
53-bit significand is obtained by rounding the quotient scaled into
`[2^52, 2^53)`.  Overflow and subnormals are outside the modelled range. -/
def roundB64 (n d : Nat) : Nat × Nat :=
  if n = 0 then (0, 1)
  else
    let k : ℤ := ilog2 n d
    let e : ℤ := 52 - k
    let m : Nat :=
      if 0 ≤ e then roundHalfEvenDiv (n * 2 ^ e.toNat) d
      else roundHalfEvenDiv n (d * 2 ^ (-e).toNat)
    if 0 ≤ k - 52 then (m * 2 ^ (k - 52).toNat, 1) else (m, 2 ^ (52 - k).toNat)

/-- Source line 212: `job.total ? Math.floor((job.processed / job.total) * 100) : 0`.
The division and the multiplication are IEEE binary64 operations (exact result,
then correctly rounded); `Math.floor` truncates the final double. -/
def completionPercentage (processed total : Nat) : ℤ :=
  if total = 0 then 0
  else
    let q1 := roundB64 processed total
    let q2 := roundB64 (q1.1 * 100) q1.2
    ((q2.1 / q2.2 : Nat) : ℤ)

/-- The outward status view: every `job` field except the recipient list, plus
the completion percentage (source lines 208-214). -/
structure StatusView where
  id : List Char
  created : Nat
  total : Nat
  processed : Nat
  success : Nat
  failed : Nat
  failures : List Failure
  interval : Nat
  subjectTmpl : List Char
  htmlTmpl : List Char
  fromEmailTmpl : List Char
  fromNameTmpl : List Char
  in_progress : Bool
  current : List Char
  last_tick : Nat
  completion_percentage : ℤ
deriving DecidableEq, Repr

/-- The copy `{...job}` with `recipients` deleted and
`completion_percentage` added. -/
def statusView (j : Job) : StatusView :=
  { id := j.id, created := j.created, total := j.total, processed := j.processed
    success := j.success, failed := j.failed, failures := j.failures
    interval := j.interval, subjectTmpl := j.subjectTmpl, htmlTmpl := j.htmlTmpl
    fromEmailTmpl := j.fromEmailTmpl, fromNameTmpl := j.fromNameTmpl
    in_progress := j.in_progress, current := j.current, last_tick := j.last_tick
    completion_percentage := completionPercentage j.processed j.total }

/-- `JobStore.status` (source lines 208-214): a missing record is the 404
case; otherwise project the view.  The handler performs no storage writes, so
its effect trace is empty. -/
def statusCall (store : Option Job) : Option StatusView × List Effect :=
  match store with
  | none => (none, [])
  | some job => (some (statusView job), [])

/-- Whether an effect is a storage write. -/
def isPutE : Effect → Bool
  | Effect.putJob _ => true
  | _ => false

/-- Whether an effect arms the timer. -/
def isAlarmE : Effect → Bool
  | Effect.setAlarm _ => true
  | _ => false

/-- Apply one effect to the persisted storage cell. -/
def applyEffect (s : Option Job) : Effect → Option Job
  | Effect.putJob j => some j
  | _ => s

/-- Apply a trace of effects to the storage cell. -/
def applyEffects (s : Option Job) (effs : List Effect) : Option Job :=
  effs.foldl applyEffect s

/-- The prefix of a tick's effects that actually executes: when the storage
write raises (PersistenceError), execution stops at the first `putJob`;
otherwise the whole trace runs. -/
def executedEffects (putFails : Bool) (effs : List Effect) : List Effect :=
  if putFails then effs.takeWhile (fun e => !isPutE e) else effs

/-- One scheduler firing: the dispatch outcome granted to that tick and the
clock value at which it runs. -/
structure TickInput where
  outcome : DispatchOutcome
  now : Nat
deriving DecidableEq, Repr

/-- Run a sequence of ticks, each fully persisted, from a storage state. -/
def runTicks (env : Env) (s : Option Job) : List TickInput → Option Job
  | [] => s
  | t :: ts => runTicks env (alarm env s t.outcome t.now).1 ts

/-- Whether an effect is a dispatch invocation. -/
def isSendE : Effect → Bool
  | Effect.send _ => true
  | _ => false

/-- The counter invariant of the spec: the cursor counts exactly the recorded
outcomes and never passes the list length. -/
def counterInv (j : Job) : Prop :=
  j.processed = j.success + j.failed ∧ j.processed ≤ j.total

/-- Shape of a string fixed by `normalizeColumnName`: non-empty, word
characters only, and no underscore at either edge. -/
def NormForm (l : List Char) : Prop :=
  l ≠ [] ∧ (∀ c ∈ l, isWordChar c = true) ∧
    l.head? ≠ some '_' ∧ l.reverse.head? ≠ some '_'

/-- A worker environment with a configured default sender. -/
def env0 : Env :=
  { DEFAULT_SENDER_EMAIL := ("s@x.com").data, DEFAULT_SENDER_NAME := [] }

/-- Scenario A of the spec: one recipient `{Email:"a@x.com"}`, subject
`"Hi"`, body `"Hello {{Email}}"`, interval 1. -/
def scenarioAArgs : InitArgs :=
  { id := ("jobA").data
    recipients := [[(("Email").data, ("a@x.com").data)]]
    subjectTmpl := ("Hi").data
    htmlTmpl := ("Hello {{Email}}").data
    interval := 1
    fromEmailTmpl := []
    fromNameTmpl := [] }

/-- The record Scenario A's `init` persists (created at clock 0). -/
def scenarioAJob : Job := (initJob scenarioAArgs 0).1

/-- Scenario B of the spec: one recipient `{Email:"not-an-email"}`. -/
def scenarioBArgs : InitArgs :=
  { scenarioAArgs with
      id := ("jobB").data
      recipients := [[(("Email").data, ("not-an-email").data)]] }

/-- The record Scenario B's `init` persists. -/
def scenarioBJob : Job := (initJob scenarioBArgs 0).1

/-- A job whose only recipient carries a valid address under the key
`"EMAIL"` — an upper-case spelling of the recognized key. -/
def upperKeyJob : Job :=
  (initJob
    { scenarioAArgs with
        id := ("jobU").data
        recipients := [[(("EMAIL").data, ("a@x.com").data)]] } 0).1

/-- A completed job record used to exercise ticks after `in_progress` is
false. -/
def doneJob : Job :=
  { scenarioAJob with in_progress := false, processed := 1, success := 1 }

/-- A job record with 29 of 100 recipients processed. -/
def job29 : Job :=
  { scenarioAJob with id := ("job29").data, total := 100, processed := 29
                      success := 29 }

/-- A job record with 3 of 4 recipients processed. -/
def job34 : Job :=
  { scenarioAJob with id := ("job34").data, total := 4, processed := 3
                      success := 3 }

/-- A job record with an empty recipient list (`total = 0`). -/
def job00 : Job :=
  { scenarioAJob with id := ("job00").data, total := 0, recipients := [] }

theorem word_not_space (c : Char) (h : isWordChar c = true) : isJsSpace c = false := by
  rw [Bool.eq_false_iff]
  intro hs
  simp only [isWordChar, Bool.or_eq_true, Bool.and_eq_true, decide_eq_true_eq,
    beq_iff_eq] at h
  simp only [isJsSpace, Bool.or_eq_true, Bool.and_eq_true, decide_eq_true_eq,
    beq_iff_eq] at hs
  omega

theorem underscoreNonWord_word {c : Char} {m : List Char}
    (h : c ∈ underscoreNonWord m) : isWordChar c = true := by
  match m with
  | [] => simp [underscoreNonWord] at h
  | d :: rest =>
      simp only [underscoreNonWord] at h
      have hmap : ∀ x : Char,
          x ∈ (d :: rest).map (fun ch => if isWordChar ch then ch else '_') →
          isWordChar x = true := by
        intro x hx
        rcases List.mem_map.mp hx with ⟨y, _, hy⟩
        by_cases hw : isWordChar y
        · rw [if_pos hw] at hy; rw [← hy]; exact hw
        · rw [if_neg hw] at hy; rw [← hy]; decide
      by_cases hd : isDigitChar d
      · rw [if_pos hd] at h
        rcases List.mem_cons.mp h with h1 | h2
        · rw [h1]; decide
        · exact hmap c h2
      · rw [if_neg hd] at h
        exact hmap c h

theorem dropWhile_eq_self_of_all {p : Char → Bool} {l : List Char}
    (h : ∀ c ∈ l, p c = false) : l.dropWhile p = l := by
  cases l with
  | nil => rfl
  | cons c t =>
      rw [List.dropWhile_cons, h c (List.mem_cons_self c t)]
      simp

theorem head?_dropWhile_not (p : Char → Bool) :
    ∀ (l : List Char) (c : Char), (l.dropWhile p).head? = some c → p c = false := by
  intro l
  induction l with
  | nil => intro c h; simp [List.dropWhile] at h
  | cons d t ih =>
      intro c h
      rw [List.dropWhile_cons] at h
      by_cases hd : p d
      · rw [if_pos hd] at h; exact ih c h
      · rw [if_neg hd] at h
        simp only [List.head?_cons, Option.some_inj] at h
        rw [← h]
        exact Bool.eq_false_iff.mpr hd

theorem dropTrailing_decomp (p : Char → Bool) (x : List Char) :
    x = (x.reverse.dropWhile p).reverse ++ (x.reverse.takeWhile p).reverse := by
  have h2 : x.reverse.reverse =
      (x.reverse.takeWhile p ++ x.reverse.dropWhile p).reverse := by
    rw [List.takeWhile_append_dropWhile]
  rw [List.reverse_reverse] at h2
  conv_lhs => rw [h2]
  rw [List.reverse_append]

theorem head?_append_left {α : Type} (y z : List α) (h : y ≠ []) :
    (y ++ z).head? = y.head? := by
  cases y with
  | nil => exact absurd rfl h
  | cons a t => simp

theorem map_word_id {l : List Char} (h : ∀ c ∈ l, isWordChar c = true) :
    l.map (fun ch => if isWordChar ch then ch else '_') = l := by
  induction l with
  | nil => rfl
  | cons c t ih =>
      simp only [List.map_cons]
      rw [if_pos (h c (List.mem_cons_self c t)),
        ih (fun d hd => h d (List.mem_cons_of_mem c hd))]

theorem normalizeColumnName_normForm (l : List Char) :
    NormForm (normalizeColumnName l) := by
  rw [normalizeColumnName]
  set m := underscoreNonWord (jsTrim l) with hm
  by_cases he : (stripEdgeUnderscores m).isEmpty
  · rw [if_pos he]
    exact ⟨by decide, by decide, by decide, by decide⟩
  · rw [if_neg he]
    set u : Char → Bool := fun c => c == '_' with hu
    set a := m.dropWhile u with ha
    set s := (a.reverse.dropWhile u).reverse with hs
    have hseq : stripEdgeUnderscores m = s := rfl
    rw [hseq] at he ⊢
    have hsne : s ≠ [] := by
      intro hnil; rw [hnil] at he; simp at he
    -- s is a prefix of a
    have hpre : a = s ++ (a.reverse.takeWhile u).reverse := by
      have := dropTrailing_decomp u a
      rw [← hs] at this; exact this
    refine ⟨hsne, ?_, ?_, ?_⟩
    · intro c hc
      have hca : c ∈ a := by rw [hpre]; exact List.mem_append_left _ hc
      have hcm : c ∈ m := (List.dropWhile_sublist u).subset (by rw [← ha]; exact hca)
      exact underscoreNonWord_word (hm ▸ hcm)
    · intro hh
      have h1 : (m.dropWhile u).head? = some '_' := by
        rw [← ha, hpre, head?_append_left _ _ hsne]; exact hh
      have := head?_dropWhile_not u m '_' h1
      simp [hu] at this
    · intro hh
      have h1 : (a.reverse.dropWhile u).head? = some '_' := by
        rw [hs, List.reverse_reverse] at hh; exact hh
      have := head?_dropWhile_not u a.reverse '_' h1
      simp [hu] at this

theorem dropWhile_underscore_eq_self {l : List Char} (h : l.head? ≠ some '_') :
    l.dropWhile (fun c => c == '_') = l := by
  cases l with
  | nil => rfl
  | cons d t =>
      rw [List.dropWhile_cons]
      have hd : d ≠ '_' := by
        intro he; exact h (by rw [he]; rfl)
      rw [if_neg (by simp [hd])]

theorem normalizeColumnName_fixed {l : List Char} (h : NormForm l) :
    normalizeColumnName l = l := by
  obtain ⟨hne, hw, hh, hl⟩ := h
  have htrim : jsTrim l = l := by
    rw [jsTrim,
      dropWhile_eq_self_of_all (fun c hc => word_not_space c (hw c hc)),
      dropWhile_eq_self_of_all
        (fun c hc => word_not_space c (hw c (List.mem_reverse.mp hc))),
      List.reverse_reverse]
  have hstrip : stripEdgeUnderscores l = l := by
    rw [stripEdgeUnderscores, dropWhile_underscore_eq_self hh,
      dropWhile_underscore_eq_self hl, List.reverse_reverse]
  rw [normalizeColumnName, htrim]
  cases l with
  | nil => exact absurd rfl hne
  | cons c rest =>
      have hmap := map_word_id hw
      rw [underscoreNonWord]
      simp only [hmap]
      have hcnu : c ≠ '_' := by
        intro he; exact hh (by rw [he]; rfl)
      by_cases hd : isDigitChar c
      · rw [if_pos hd]
        have h1 : List.dropWhile (fun c => c == '_') ('_' :: c :: rest) =
            List.dropWhile (fun c => c == '_') (c :: rest) := by
          rw [List.dropWhile_cons, if_pos (by decide)]
        have hstrip2 : stripEdgeUnderscores ('_' :: c :: rest) = c :: rest := by
          rw [stripEdgeUnderscores, h1, dropWhile_underscore_eq_self hh,
            dropWhile_underscore_eq_self hl, List.reverse_reverse]
        rw [hstrip2]
        simp
      · rw [if_neg hd, hstrip]
        simp

/-- Claim C9: the key-normalization function `normalizeColumnName` (trim, map
characters outside `[A-Za-z0-9_]` to an underscore, insert an underscore at a
leading digit, strip leading and trailing underscores, fall back to `"col"`
when empty) is idempotent: normalizing twice equals normalizing once. -/
theorem C9_normalize_idempotent (k : List Char) :
    normalizeColumnName (normalizeColumnName k) = normalizeColumnName k :=
  normalizeColumnName_fixed (normalizeColumnName_normForm k)

theorem alarm_none (env : Env) (o : DispatchOutcome) (n : Nat) :
    alarm env none o n = (none, []) := rfl

theorem alarm_stale (env : Env) {j : Job} (o : DispatchOutcome) (n : Nat)
    (h : j.in_progress = false) : alarm env (some j) o n = (some j, []) := by
  simp only [alarm, if_pos h]

theorem alarm_counters (env : Env) (j : Job) (o : DispatchOutcome) (n : Nat) :
    ∃ j', (alarm env (some j) o n).1 = some j' ∧
      j'.total = j.total ∧ j.processed ≤ j'.processed ∧
      (counterInv j → counterInv j') := by
  simp only [alarm]
  by_cases hp : j.in_progress = false
  · rw [if_pos hp]
    exact ⟨j, rfl, rfl, Nat.le_refl _, fun h => h⟩
  · rw [if_neg hp]
    by_cases ht : j.total ≤ j.processed
    · rw [if_pos ht]
      exact ⟨{ j with in_progress := false }, rfl, rfl, Nat.le_refl _,
        fun h => h⟩
    · rw [if_neg ht]
      by_cases hv :
          isValidEmail (resolveEmail (j.recipients.getD j.processed [])) = false
      · rw [if_pos hv]
        simp only [finishTick]
        refine ⟨_, rfl, rfl, by simp, fun h => ?_⟩
        obtain ⟨h1, h2⟩ := h
        constructor
        · simp; omega
        · simp; omega
      · rw [if_neg hv]
        cases o with
        | ok =>
            simp only [finishTick]
            refine ⟨_, rfl, rfl, by simp, fun h => ?_⟩
            obtain ⟨h1, h2⟩ := h
            constructor
            · simp; omega
            · simp; omega
        | err msg =>
            simp only [finishTick]
            refine ⟨_, rfl, rfl, by simp, fun h => ?_⟩
            obtain ⟨h1, h2⟩ := h
            constructor
            · simp; omega
            · simp; omega

theorem runTicks_counterInv (env : Env) :
    ∀ (ticks : List TickInput) (s : Option Job),
      (∀ j, s = some j → counterInv j) →
      ∀ j', runTicks env s ticks = some j' → counterInv j' := by
  intro ticks
  induction ticks with
  | nil => intro s hs j' hj'; exact hs j' hj'
  | cons t ts ih =>
      intro s hs j' hj'
      rw [runTicks] at hj'
      refine ih (alarm env s t.outcome t.now).1 ?_ j' hj'
      intro j hj
      cases s with
      | none => rw [alarm_none] at hj; exact absurd hj (by simp)
      | some j0 =>
          obtain ⟨j1, hj1, _, _, hinv⟩ :=
            alarm_counters env j0 t.outcome t.now
          rw [hj1] at hj
          injection hj with hjj
          rw [← hjj]
          exact hinv (hs j0 rfl)

/-- Claim C2: along every run `init` followed by any tick sequence, each
persisted record satisfies `processed = success + failed` and
`processed ≤ total`; moreover a single tick never decreases the persisted
`processed` cursor of an existing record. -/
theorem C2_counter_invariants (env : Env) (args : InitArgs) (now0 : Nat)
    (ticks : List TickInput) :
    (∀ j, runTicks env (some (initJob args now0).1) ticks = some j →
       j.processed = j.success + j.failed ∧ j.processed ≤ j.total) ∧
    (∀ (j : Job) (o : DispatchOutcome) (n : Nat), ∃ j',
       (alarm env (some j) o n).1 = some j' ∧ j.processed ≤ j'.processed) := by
  constructor
  · intro j hj
    refine runTicks_counterInv env ticks (some (initJob args now0).1) ?_ j hj
    intro j0 hj0
    injection hj0 with hjj
    rw [← hjj]
    constructor
    · simp [initJob]
    · simp [initJob]
  · intro j o n
    obtain ⟨j', h1, _, h3, _⟩ := alarm_counters env j o n
    exact ⟨j', h1, h3⟩

/-- Witness for C2: the freshly initialized Scenario A record (empty tick
sequence) satisfies the counter invariant, and a concrete tick on it does not
decrease the cursor. -/
theorem C2_counter_invariants_witness :
    ((initJob scenarioAArgs 0).1.processed =
        (initJob scenarioAArgs 0).1.success + (initJob scenarioAArgs 0).1.failed ∧
      (initJob scenarioAArgs 0).1.processed ≤ (initJob scenarioAArgs 0).1.total) ∧
    (∃ j', (alarm env0 (some scenarioAJob) DispatchOutcome.ok 1000).1 = some j' ∧
       scenarioAJob.processed ≤ j'.processed) :=
  ⟨(C2_counter_invariants env0 scenarioAArgs 0 []).1 _ rfl,
   (C2_counter_invariants env0 scenarioAArgs 0 []).2 scenarioAJob
     DispatchOutcome.ok 1000⟩

/-- Claim C4: once a persisted record has `in_progress = false`, no later tick
ever persists a record with `in_progress = true` (a stale tick returns without
touching state). -/
theorem C4_in_progress_never_reverts (env : Env) (s : Option Job)
    (ticks : List TickInput) (h : ∀ j, s = some j → j.in_progress = false) :
    ∀ j', runTicks env s ticks = some j' → j'.in_progress = false := by
  induction ticks generalizing s with
  | nil => intro j' hj'; exact h j' hj'
  | cons t ts ih =>
      intro j' hj'
      rw [runTicks] at hj'
      refine ih (alarm env s t.outcome t.now).1 ?_ j' hj'
      intro j hj
      cases s with
      | none => rw [alarm_none] at hj; exact absurd hj (by simp)
      | some j0 =>
          have h0 := h j0 rfl
          rw [alarm_stale env t.outcome t.now h0] at hj
          injection hj with hjj
          rw [← hjj]
          exact h0

/-- Witness for C4: a concrete completed record stays completed across a
concrete tick sequence. -/
theorem C4_in_progress_never_reverts_witness : doneJob.in_progress = false :=
  C4_in_progress_never_reverts env0 (some doneJob)
    [⟨DispatchOutcome.ok, 7⟩, ⟨DispatchOutcome.err (("x").data), 9⟩]
    (fun j hj => by cases hj; rfl) doneJob (by decide)

/-- Claim C5: in every tick's effect trace, no timer is armed before the
updated record is persisted; when the persistence write raises, the executed
prefix arms no timer and leaves the stored record — hence the cursor the next
firing reads — unchanged. -/
theorem C5_persist_before_rearm (env : Env) (s : Option Job)
    (o : DispatchOutcome) (n : Nat) :
    (((alarm env s o n).2.takeWhile (fun e => !isPutE e)).all
        (fun e => !isAlarmE e) = true) ∧
    applyEffects s (executedEffects true (alarm env s o n).2) = s ∧
    ((executedEffects true (alarm env s o n).2).all
      (fun e => !isAlarmE e) = true) := by
  cases s with
  | none =>
      rw [alarm_none]
      exact ⟨rfl, rfl, rfl⟩
  | some j =>
      simp only [alarm]
      by_cases hp : j.in_progress = false
      · rw [if_pos hp]
        exact ⟨rfl, rfl, rfl⟩
      · rw [if_neg hp]
        by_cases ht : j.total ≤ j.processed
        · rw [if_pos ht]
          exact ⟨rfl, rfl, rfl⟩
        · rw [if_neg ht]
          by_cases hv :
              isValidEmail (resolveEmail (j.recipients.getD j.processed [])) =
                false
          · rw [if_pos hv]
            simp only [finishTick]
            refine ⟨by simp [isPutE], ?_, ?_⟩
            · simp [executedEffects, List.takeWhile, isPutE, applyEffects]
            · simp [executedEffects, List.takeWhile, isPutE, isAlarmE]
          · rw [if_neg hv]
            cases o with
            | ok =>
                simp only [finishTick]
                refine ⟨by simp [isPutE, isAlarmE], ?_, ?_⟩
                · simp [executedEffects, List.takeWhile, isPutE, applyEffects,
                    applyEffect]
                · simp [executedEffects, List.takeWhile, isPutE, isAlarmE]
            | err msg =>
                simp only [finishTick]
                refine ⟨by simp [isPutE, isAlarmE], ?_, ?_⟩
                · simp [executedEffects, List.takeWhile, isPutE, applyEffects,
                    applyEffect]
                · simp [executedEffects, List.takeWhile, isPutE, isAlarmE]

/-- Counterexample to claim C3: a recipient carrying a valid address under the
key `"EMAIL"` — the word "email" in upper case — is not resolved by the tick;
the run records an `"Invalid email"` failure (with the `"(missing)"`
placeholder) and never dispatches, because the code consults exactly the keys
`Email` and `email`. -/
theorem C3_counterexample :
    isValidEmail (recGet (upperKeyJob.recipients.getD 0 []) (("EMAIL").data)) =
      true ∧
    resolveEmail (upperKeyJob.recipients.getD 0 []) = [] ∧
    ((alarm env0 (some upperKeyJob) DispatchOutcome.ok 1000).1).map Job.failed =
      some 1 ∧
    ((alarm env0 (some upperKeyJob) DispatchOutcome.ok 1000).1).map
        Job.failures =
      some [{ i := 0, email := ("(missing)").data
              error := ("Invalid email").data }] ∧
    ((alarm env0 (some upperKeyJob) DispatchOutcome.ok 1000).2.all
      (fun e => !isSendE e) = true) := by
  decide

/-- Amended claim C3: the tick resolves the address by exact-match lookup of
the key `Email`, then `email` (`resolveEmail`), not by case-insensitive
lookup; whenever the address so resolved passes the email regex, the tick
dispatches to exactly that address, and on a normal dispatch return it records
no failure and increments `success`. -/
theorem C3_exact_key_resolution (env : Env) (j : Job) (o : DispatchOutcome)
    (n : Nat) (h1 : j.in_progress = true) (h2 : j.processed < j.total)
    (h3 : isValidEmail (resolveEmail (j.recipients.getD j.processed [])) = true) :
    (∃ p, Effect.send p ∈ (alarm env (some j) o n).2 ∧
       p.«to» = [resolveEmail (j.recipients.getD j.processed [])]) ∧
    (o = DispatchOutcome.ok → ∃ j',
       (alarm env (some j) o n).1 = some j' ∧ j'.failed = j.failed ∧
       j'.failures = j.failures ∧ j'.success = j.success + 1) := by
  simp only [alarm]
  rw [if_neg (by simp [h1])]
  rw [if_neg (by omega)]
  rw [if_neg (by rw [h3]; decide)]
  cases o with
  | ok =>
      simp only [finishTick]
      constructor
      · exact ⟨_, List.mem_append_left _
          (List.mem_append_left _ (List.mem_cons_self _ _)), rfl⟩
      · intro _
        exact ⟨_, rfl, rfl, rfl, rfl⟩
  | err msg =>
      simp only [finishTick]
      constructor
      · exact ⟨_, List.mem_append_left _
          (List.mem_append_left _ (List.mem_cons_self _ _)), rfl⟩
      · intro hcontra
        exact absurd hcontra (by simp)

/-- Witness for the amended C3 at Scenario A's record: the tick dispatches to
the address resolved from the `Email` key and increments `success`. -/
theorem C3_exact_key_resolution_witness :
    (∃ p, Effect.send p ∈
        (alarm env0 (some scenarioAJob) DispatchOutcome.ok 1000).2 ∧
       p.«to» =
         [resolveEmail (scenarioAJob.recipients.getD scenarioAJob.processed [])]) ∧
    (∃ j',
       (alarm env0 (some scenarioAJob) DispatchOutcome.ok 1000).1 = some j' ∧
       j'.failed = scenarioAJob.failed ∧ j'.failures = scenarioAJob.failures ∧
       j'.success = scenarioAJob.success + 1) :=
  ⟨(C3_exact_key_resolution env0 scenarioAJob DispatchOutcome.ok 1000
      (by decide) (by decide) (by decide)).1,
   (C3_exact_key_resolution env0 scenarioAJob DispatchOutcome.ok 1000
      (by decide) (by decide) (by decide)).2 rfl⟩

/-- Claim C1, evaluated (Scenario A): one tick from the freshly initialized
record yields `processed = 1`, `success = 1`, `failed = 0` and dispatches the
rendered body `"Hello a@x.com"` — but the persisted record still has
`in_progress = true`, and the trace arms no further timer, so the
`in_progress = false` completion guard can never run.  The spec (and the
polling frontend, which stops only on `!in_progress`) expects `false` here. -/
theorem C1_scenarioA_one_tick :
    ((alarm env0 (some scenarioAJob) DispatchOutcome.ok 1000).1).map
        Job.processed = some 1 ∧
    ((alarm env0 (some scenarioAJob) DispatchOutcome.ok 1000).1).map
        Job.success = some 1 ∧
    ((alarm env0 (some scenarioAJob) DispatchOutcome.ok 1000).1).map
        Job.failed = some 0 ∧
    ((alarm env0 (some scenarioAJob) DispatchOutcome.ok 1000).1).map
        Job.in_progress = some true ∧
    Effect.send { «to» := [("a@x.com").data], sender := ("s@x.com").data
                  subject := ("Hi").data
                  html_body := ("Hello a@x.com").data }
      ∈ (alarm env0 (some scenarioAJob) DispatchOutcome.ok 1000).2 ∧
    ((alarm env0 (some scenarioAJob) DispatchOutcome.ok 1000).2.all
      (fun e => !isAlarmE e) = true) := by
  decide

/-- Claim C6 (Scenario B): the tick on the recipient `{Email:"not-an-email"}`
never invokes the dispatch client, increments `failed`, appends the failure
entry `{index 0, "Invalid email"}`, and still advances the cursor, reaching
`processed = total`. -/
theorem C6_invalid_email_tick :
    ((alarm env0 (some scenarioBJob) DispatchOutcome.ok 1000).1).map
        Job.failed = some 1 ∧
    ((alarm env0 (some scenarioBJob) DispatchOutcome.ok 1000).1).map
        Job.failures =
      some [{ i := 0, email := ("not-an-email").data
              error := ("Invalid email").data }] ∧
    ((alarm env0 (some scenarioBJob) DispatchOutcome.ok 1000).1).map
        Job.processed = some 1 ∧
    ((alarm env0 (some scenarioBJob) DispatchOutcome.ok 1000).1).map
        Job.total = some 1 ∧
    ((alarm env0 (some scenarioBJob) DispatchOutcome.ok 1000).2.all
      (fun e => !isSendE e) = true) := by
  decide

/-- Counterexample to claim C7: at `processed = 29`, `total = 100` the status
view's completion percentage — the binary64 evaluation the code performs — is
28, while the exact `floor(processed/total*100)` is 29. -/
theorem C7_counterexample :
    (statusView job29).completion_percentage = 28 ∧
    ((job29.processed * 100) / job29.total : Nat) = 29 ∧
    (28 : ℤ) ≠ 29 := by
  decide

/-- Amended claim C7: `completionPercentage` is the floor of
`processed/total*100` computed in IEEE binary64 arithmetic, and 0 when
`total = 0`; this agrees with the exact rational floor at the spec's examples
(75 at 3 of 4) but not universally (28, not 29, at 29 of 100). -/
theorem C7_completion_percentage_b64 (j : Job) :
    (j.total = 0 → (statusView j).completion_percentage = 0) ∧
    (j.processed = 3 → j.total = 4 → (statusView j).completion_percentage = 75) ∧
    (j.processed = 29 → j.total = 100 →
      (statusView j).completion_percentage = 28) := by
  refine ⟨?_, ?_, ?_⟩
  · intro h
    show completionPercentage j.processed j.total = 0
    rw [h]
    rfl
  · intro h1 h2
    show completionPercentage j.processed j.total = 75
    rw [h1, h2]
    decide
  · intro h1 h2
    show completionPercentage j.processed j.total = 28
    rw [h1, h2]
    decide

/-- Witness for the amended C7 at concrete records with totals 0, 4 and 100. -/
theorem C7_completion_percentage_b64_witness :
    (statusView job00).completion_percentage = 0 ∧
    (statusView job34).completion_percentage = 75 ∧
    (statusView job29).completion_percentage = 28 :=
  ⟨(C7_completion_percentage_b64 job00).1 rfl,
   (C7_completion_percentage_b64 job34).2.1 rfl rfl,
   (C7_completion_percentage_b64 job29).2.2 rfl rfl⟩

/-- Claim C10: `status` performs no storage write (its effect trace leaves the
persisted record exactly as it was), projects the stored record, and its view
is independent of — and does not contain — the recipient list. -/
theorem C10_status_read_only (s : Option Job) (j : Job)
    (recs : List (List (List Char × List Char))) :
    applyEffects s (statusCall s).2 = s ∧
    (statusCall (some j)).1 = some (statusView j) ∧
    statusView { j with recipients := recs } = statusView j := by
  refine ⟨?_, rfl, rfl⟩
  cases s with
  | none => rfl
  | some j0 => rfl
